import Mathlib

/-!
Verification of the desw-bitcoin adapter (src/desw_bitcoin.py) in a
shallow embedding.

The module is a notification-driven adapter between a bitcoind daemon
(reached over JSON-RPC) and an external ledger store.  We embed:

* the ledger store state (Credit rows, Address rows, HWBalance rows)
  as explicit lists; the HWBalance list is kept in descending time
  order, so the head is the row returned by
  `query(HWBalance).order_by(time.desc()).first()`;
* the daemon as a record of pure response functions (an oracle);
* each Python function as a Lean function on this state.  Python code
  that can raise an uncaught exception returns `Option` (`none` means
  the exception propagates); fallible commits are modelled by an
  explicit `commitOk : Bool` argument at each `ses.commit()` site.

A central SQLAlchemy fact drives the embedding of `adjust_hwbalance`:
`ses.add(obj)` on an object that is already persistent (it was loaded
by `ses.query(...).first()`) does not insert a new row; the `+=`
mutations are flushed as an UPDATE of the existing row.  Only
`ses.add` of a freshly constructed object (as in the block branch of
`main`, which builds `wm.HWBalance(...)`) inserts a new row.
-/

namespace DeswBitcoin

/-- `NETCODES = ['BTC', 'XTN']` from the source. -/
def NETCODES : List String := ["BTC", "XTN"]

/-- `NETWORK = 'Bitcoin'` from the source. -/
def NETWORK : String := "Bitcoin"

/-- `NETWORK.lower()`: the lower-cased network name used for the
HWBalance rows; lower-casing the constant "Bitcoin" gives
"bitcoin". (Written as the literal result because `String.toLower`
does not reduce definitionally.) -/
def networkLower : String := "bitcoin"

/-- A `wallet.Credit` row, with the fields this module reads or writes. -/
structure Credit where
  amount : Int
  address : String
  currency : String
  network : String
  transaction_state : String
  reference : String
  ref_id : String
  user_id : Nat
deriving DecidableEq, Repr

/-- A `wallet.Address` row: a known deposit address owned by a user. -/
structure Address where
  address : String
  user_id : Nat
deriving DecidableEq, Repr

/-- A `wallet.HWBalance` row; the constructor argument order
`HWBalance(avail, total, currency, network)` matches the call in the
block branch of `main`.  The `time` column is represented by the
position in the `DB.hwbalances` list (head = most recent). -/
structure HWBalance where
  available : Int
  total : Int
  currency : String
  network : String
deriving DecidableEq, Repr

/-- The ledger store visible to this module. `hwbalances` is ordered
by time descending (head = latest row). -/
structure DB where
  credits : List Credit
  addresses : List Address
  hwbalances : List HWBalance
deriving DecidableEq, Repr

/-- One entry of `gettransaction(txid)['details']`: an output of the
transaction as reported by the daemon. -/
structure TxDetail where
  address : String
  amount : Int
  category : String
deriving DecidableEq, Repr

/-- The daemon's `gettransaction` response, with the fields the module
reads. -/
structure TxInfo where
  txid : String
  confirmations : Int
  details : List TxDetail
deriving DecidableEq, Repr

/-- The bitcoind daemon as an oracle of pure responses.
`gettransaction` returning `none` models an RPC failure or unknown
txid (an uncaught exception in the Python). `getinfo_blocks` and
`getinfo_balance` are the `blocks` and `balance` fields of
`getinfo()`; `getbalance_star0` is `getbalance("*", 0)`. -/
structure Daemon where
  sendtoaddress : String → Int → String
  gettransaction : String → Option TxInfo
  getinfo_blocks : Int
  getinfo_balance : Int
  getbalance_star0 : Int

/-- A call to the external ledger core's `confirm_send(address,
amount, ref_id)` collaborator, recorded as an emitted event. -/
structure SendCall where
  address : String
  amount : Int
  ref_id : String
deriving DecidableEq, Repr

/-- `ses.query(HWBalance).filter(network == NETWORK.lower()).order_by(time.desc()).first()`:
the first row (in descending time order) whose network matches. -/
def findLatestHWB (rows : List HWBalance) : Option HWBalance :=
  rows.find? (fun h => h.network == networkLower)

/-- Mutate, in place, the row that `findLatestHWB` returns (the
SQLAlchemy session flushes attribute mutations of a persistent object
as an UPDATE of that row; no insert happens). -/
def updateLatestHWB (f : HWBalance → HWBalance) : List HWBalance → List HWBalance
  | [] => []
  | h :: t =>
    if h.network == networkLower then f h :: t
    else h :: updateLatestHWB f t

/-- `adjust_hwbalance(available=None, total=None)` from the source:
if both deltas are `None`, return immediately; otherwise read the
latest snapshot for the network, apply the deltas in place
(`hwb.available += available`, `hwb.total += total`), `ses.add` the
(already persistent) object and commit.  `none` as the result models
the uncaught `AttributeError` raised when no snapshot row exists.  A
commit failure (`commitOk = false`) is caught: the session is rolled
back and flushed, so the store keeps its prior contents and no
exception propagates. -/
def adjust_hwbalance (commitOk : Bool) (available total : Option Int) (db : DB) :
    Option DB :=
  if available.isNone && total.isNone then some db
  else
    match findLatestHWB db.hwbalances with
    | none => none
    | some _ =>
      let rows := updateLatestHWB (fun h =>
        { h with
          available := h.available + available.getD 0
          total := h.total + total.getD 0 }) db.hwbalances
      if commitOk then some { db with hwbalances := rows } else some db

/-- `get_balance()` from the source: read the latest snapshot and
return its available and total fields (as the pair
(available, total)).  `none` models the uncaught `AttributeError`
when no snapshot exists. -/
def get_balance (db : DB) : Option (Int × Int) :=
  (findLatestHWB db.hwbalances).map (fun h => (h.available, h.total))

/-- Modelled from the spec: `process_credit(...)` is the external
ledger core's (desw) credit-creation entry point, absent from src/.
Per the spec ("Create a Credit via the external ledger's
credit-creation entry point, attributing the
amount/currency/network/state/reference/user") it creates a single
Credit row with the given attributes. -/
def processCreditRow (amount : Int) (address currency network : String)
    (transaction_state reference ref_id : String) (user_id : Nat) : Credit :=
  { amount, address, currency, network, transaction_state, reference, ref_id,
    user_id }

/-- `process_receive(txid, details, confirmed)` from the source.
`currency0` stands for the configured `CURRENCIES[0]`.  Steps, in
source order: (1) if a Credit with `ref_id == txid` already exists,
log and return; (2) compute the transaction state; (3) if the details
address is unknown, log and return; (4) create the Credit through
`process_credit`; (5) `adjust_hwbalance(available=None, total=amount)`. -/
def process_receive (commitOk : Bool) (currency0 : String) (txid : String)
    (details : TxDetail) (confirmed : Bool) (db : DB) : Option DB :=
  if 0 < (db.credits.filter (fun c => c.ref_id == txid)).length then some db
  else
    let transaction_state := if confirmed then "complete" else "unconfirmed"
    match db.addresses.find? (fun a => a.address == details.address) with
    | none => some db
    | some addy =>
      let amount := details.amount
      let db1 : DB :=
        { db with
          credits := db.credits ++
            [processCreditRow amount details.address currency0 NETWORK
              transaction_state "tx received" txid addy.user_id] }
      adjust_hwbalance commitOk none (some amount) db1

/-- `send_to_address(address, amount)` from the source: call the
daemon's `sendtoaddress`, then `adjust_hwbalance(available=-amount,
total=-amount)`, and return the daemon-reported txid.  No balance
check happens before the daemon call; the daemon is invoked on every
input state. -/
def send_to_address (d : Daemon) (commitOk : Bool) (address : String)
    (amount : Int) (db : DB) : Option (String × DB) :=
  let txid := d.sendtoaddress address amount
  (adjust_hwbalance commitOk (some (-amount)) (some (-amount)) db).map
    (fun db2 => (txid, db2))

/-- `validate_address(address, network=None)` from the source,
parametric in pycoin's `is_address_valid` (an external library
function, taken as an argument `isAddressValid` receiving the address
and the `allowable_netcodes` list).  `Except.error` models the
decoder raising; the `try/except` swallows it and returns `false`.
The Lean function is total: no exception escapes. -/
def validate_address (isAddressValid : String → List String → Except Unit (Option String))
    (address : String) (network : Option String) : Bool :=
  match isAddressValid address NETCODES with
  | Except.error _ => false
  | Except.ok netcode =>
    if netcode.isNone || (network.isSome && netcode != network) then false
    else true

/-- The per-output loop of the `transaction` branch of `main`:
`for p, put in enumerate(txd['details'])`, dispatching on
`put['category']`.  A `send` output emits a `confirm_send` call
(recorded in the event list; `confirm_send` is the external ledger
core's collaborator); a `receive` output runs `process_receive`;
any other category falls through the `if/elif` with no effect.  The
reference id of output `p` is `"txid:p"`. -/
def processOutputs (commitOk : Bool) (currency0 : String) (txid : String)
    (confirmed : Bool) :
    Nat → List TxDetail → DB × List SendCall → Option (DB × List SendCall)
  | _, [], st => some st
  | p, put :: rest, (db, calls) =>
    if put.category == "send" then
      processOutputs commitOk currency0 txid confirmed (p + 1) rest
        (db, calls ++ [⟨put.address, put.amount, txid ++ ":" ++ toString p⟩])
    else if put.category == "receive" then
      match process_receive commitOk currency0 (txid ++ ":" ++ toString p) put
          confirmed db with
      | none => none
      | some db2 => processOutputs commitOk currency0 txid confirmed (p + 1) rest
          (db2, calls)
    else
      processOutputs commitOk currency0 txid confirmed (p + 1) rest (db, calls)

/-- The `transaction` branch of `main`: fetch the transaction from
the daemon, compute `confirmed = confirmations >= CONFS`, and run the
per-output loop starting at index 0 with no calls emitted yet.
`CONFS` is the configured confirmation threshold. -/
def mainTransaction (d : Daemon) (CONFS : Int) (commitOk : Bool)
    (currency0 : String) (txid : String) (db : DB) :
    Option (DB × List SendCall) :=
  match d.gettransaction txid with
  | none => none
  | some txd =>
    processOutputs commitOk currency0 txid (decide (CONFS ≤ txd.confirmations))
      0 txd.details (db, [])

/-- The characters before the first colon: `s.split(':')[0]` on the
character list.  When the string holds no colon this is the whole
string, exactly as Python's split returns the whole string as its
first chunk. -/
def beforeColon : List Char → List Char
  | [] => []
  | c :: cs => if c = ':' then [] else c :: beforeColon cs

/-- `cred.ref_id.split(':')[0] or cred.ref_id` from the block branch:
the part of the reference id before the first colon, falling back to
the whole reference id when that part is the empty string (Python's
`or` on a falsy empty string). -/
def refTxid (r : String) : String :=
  let h := String.mk (beforeColon r.data)
  if h = "" then r else h

/-- The reference-id rewrite loop of the block branch:
`for p, put in enumerate(txd['details']): cred.ref_id = "%s:%s" % (txd['txid'], p)`.
Each iteration overwrites `ref_id`, so the loop's net effect is the
last assignment (or no change when the details list is empty). -/
def rewriteRefId (txid : String) (details : List TxDetail) (r : String) : String :=
  (List.range details.length).foldl (fun _ p => txid ++ ":" ++ toString p) r

/-- The body of the block branch's per-credit loop for one Credit
that the query returned (state `unconfirmed` and network `NETWORK`):
re-fetch its transaction from the daemon; when confirmations meet the
threshold, flip the state to `complete` and run the reference-id
rewrite loop.  A credit that the query filter excludes is untouched.
`none` models an uncaught RPC failure. -/
def stepCredit (d : Daemon) (CONFS : Int) (c : Credit) : Option Credit :=
  if c.transaction_state == "unconfirmed" && c.network == NETWORK then
    match d.gettransaction (refTxid c.ref_id) with
    | none => none
    | some txd =>
      if CONFS ≤ txd.confirmations then
        some { c with
          transaction_state := "complete"
          ref_id := rewriteRefId txd.txid txd.details c.ref_id }
      else some c
  else some c

/-- The block branch's loop over all credits: each row of the credits
table is processed by `stepCredit` (the query's filters are the
conditional inside `stepCredit`). -/
def updateCredits (d : Daemon) (CONFS : Int) : List Credit → Option (List Credit)
  | [] => some []
  | c :: rest => do
    let c2 ← stepCredit d CONFS c
    let rest2 ← updateCredits d CONFS rest
    pure (c2 :: rest2)

/-- The `block` branch of `main`: read `getinfo()`; if the reported
height is not strictly greater than the module-level `lastblock`
watermark, return with nothing changed.  Otherwise advance the
watermark, update the unconfirmed credits and commit (a failed
commit, `commitOk1 = false`, rolls the credit updates back), then
construct a fresh `HWBalance(info['balance'], getbalance("*",0),
CURRENCIES[0], NETWORK.lower())` — a new object, so `ses.add`
inserts a new row at the head of the log — and commit it (a failed
commit, `commitOk2 = false`, rolls the insert back).  Returns the
resulting store and watermark. -/
def mainBlock (d : Daemon) (CONFS : Int) (commitOk1 commitOk2 : Bool)
    (currency0 : String) (db : DB) (lastblock : Int) : Option (DB × Int) :=
  if d.getinfo_blocks ≤ lastblock then some (db, lastblock)
  else
    match updateCredits d CONFS db.credits with
    | none => none
    | some creds2 =>
      let db1 : DB := if commitOk1 then { db with credits := creds2 } else db
      let hwb : HWBalance :=
        ⟨d.getinfo_balance, d.getbalance_star0, currency0, networkLower⟩
      let db2 : DB :=
        if commitOk2 then { db1 with hwbalances := hwb :: db1.hwbalances } else db1
      some (db2, d.getinfo_blocks)

/-! Concrete test fixtures used to instantiate the theorems. -/

/-- A store holding one balance snapshot, available 100 and total 100. -/
def db100 : DB := ⟨[], [], [⟨100, 100, "BTC", "bitcoin"⟩]⟩

/-- A test daemon: chain height 10, `getinfo` balance 50,
`getbalance("*",0)` 60, and one known transaction `abc` with three
confirmations and two receive outputs (indices 0 and 1). -/
def testDaemon : Daemon :=
  ⟨fun _ _ => "txA",
   fun t =>
     if t = "abc" then
       some ⟨"abc", 3, [⟨"addr1", 5, "receive"⟩, ⟨"addr2", 7, "receive"⟩]⟩
     else none,
   10, 50, 60⟩

/-- A store with one unconfirmed credit for output 0 of transaction
`abc`, the matching known address, and one balance snapshot. -/
def dbUnconfirmed : DB :=
  ⟨[⟨5, "addr1", "BTC", "Bitcoin", "unconfirmed", "tx received", "abc:0", 1⟩],
   [⟨"addr1", 1⟩], [⟨100, 100, "BTC", "bitcoin"⟩]⟩

/-- The store `dbUnconfirmed` after a block notification from
`testDaemon`: the credit is complete, its reference id was rewritten
by the loop to the last output index, and a fresh snapshot was
prepended. -/
def dbAfterBlock : DB :=
  ⟨[⟨5, "addr1", "BTC", "Bitcoin", "complete", "tx received", "abc:1", 1⟩],
   [⟨"addr1", 1⟩], [⟨50, 60, "BTC", "bitcoin"⟩, ⟨100, 100, "BTC", "bitcoin"⟩]⟩

/-- A decoder that reports every address as a valid BTC address; a
stand-in for pycoin's `is_address_valid` in concrete instantiations. -/
def constDecoder : String → List String → Except Unit (Option String) :=
  fun _ _ => Except.ok (some "BTC")

/-! Helper lemmas about the embedding. -/

theorem length_updateLatestHWB (f : HWBalance → HWBalance)
    (rows : List HWBalance) :
    (updateLatestHWB f rows).length = rows.length := by
  induction rows with
  | nil => rfl
  | cons h t ih =>
    unfold updateLatestHWB
    split
    · simp
    · simp [ih]

theorem findLatest_updateLatestHWB (f : HWBalance → HWBalance)
    (hf : ∀ h, (f h).network = h.network) (rows : List HWBalance) :
    findLatestHWB (updateLatestHWB f rows) = (findLatestHWB rows).map f := by
  induction rows with
  | nil => rfl
  | cons h t ih =>
    by_cases hn : (h.network == networkLower) = true
    · have hfn : ((f h).network == networkLower) = true := by
        have he : (f h).network = h.network := hf h
        rw [he]; exact hn
      have hu : updateLatestHWB f (h :: t) = f h :: t := by
        unfold updateLatestHWB; rw [if_pos hn]
      rw [hu]
      unfold findLatestHWB
      rw [List.find?_cons_of_pos t hfn, List.find?_cons_of_pos t hn]
      rfl
    · have hu : updateLatestHWB f (h :: t) = h :: updateLatestHWB f t := by
        conv_lhs => rw [updateLatestHWB]
        rw [if_neg hn]
      rw [hu]
      unfold findLatestHWB
      rw [List.find?_cons_of_neg (updateLatestHWB f t) hn,
        List.find?_cons_of_neg t hn]
      exact ih

theorem adjust_hwbalance_eq (available total : Option Int) (db : DB)
    (hwb : HWBalance) (hlatest : findLatestHWB db.hwbalances = some hwb)
    (hguard : (available.isNone && total.isNone) = false) :
    adjust_hwbalance true available total db =
      some { db with
        hwbalances := updateLatestHWB (fun h =>
          { h with
            available := h.available + available.getD 0
            total := h.total + total.getD 0 }) db.hwbalances } := by
  unfold adjust_hwbalance
  rw [hguard, hlatest]
  rfl

theorem adjust_hwbalance_credits (commitOk : Bool) (available total : Option Int)
    (db db2 : DB) (h : adjust_hwbalance commitOk available total db = some db2) :
    db2.credits = db.credits ∧ db2.addresses = db.addresses := by
  unfold adjust_hwbalance at h
  split at h
  · cases h; exact ⟨rfl, rfl⟩
  · cases hfind : findLatestHWB db.hwbalances with
    | none => rw [hfind] at h; cases h
    | some hwb =>
      rw [hfind] at h
      cases commitOk with
      | false => rw [if_neg (by decide)] at h; cases h; exact ⟨rfl, rfl⟩
      | true => rw [if_pos rfl] at h; cases h; exact ⟨rfl, rfl⟩

theorem adjust_latest_spec (available total : Option Int) (db : DB)
    (hwb : HWBalance) (hlatest : findLatestHWB db.hwbalances = some hwb)
    (hguard : (available.isNone && total.isNone) = false) :
    ∃ db2, adjust_hwbalance true available total db = some db2 ∧
      db2.hwbalances.length = db.hwbalances.length ∧
      db2.credits = db.credits ∧
      findLatestHWB db2.hwbalances = some
        { hwb with
          available := hwb.available + available.getD 0
          total := hwb.total + total.getD 0 } := by
  refine ⟨_, adjust_hwbalance_eq available total db hwb hlatest hguard, ?_, rfl, ?_⟩
  · exact length_updateLatestHWB _ db.hwbalances
  · rw [findLatest_updateLatestHWB (fun h =>
        { h with
          available := h.available + available.getD 0
          total := h.total + total.getD 0 }) (fun _ => rfl) db.hwbalances,
      hlatest]
    rfl

theorem process_receive_creates (currency0 txid : String) (put : TxDetail)
    (confirmed : Bool) (db : DB) (addy : Address)
    (h0 : (db.credits.filter (fun c => c.ref_id == txid)).length = 0)
    (haddr : db.addresses.find? (fun a => a.address == put.address) = some addy) :
    process_receive true currency0 txid put confirmed db =
      adjust_hwbalance true none (some put.amount)
        { db with
          credits := db.credits ++
            [processCreditRow put.amount put.address currency0 NETWORK
              (if confirmed then "complete" else "unconfirmed") "tx received"
              txid addy.user_id] } := by
  unfold process_receive
  rw [h0, if_neg (by decide), haddr]

theorem rewriteRefId_eq (txid : String) (details : List TxDetail) (r : String)
    (h : details ≠ []) :
    rewriteRefId txid details r = txid ++ ":" ++ toString (details.length - 1) := by
  obtain ⟨n, hn⟩ : ∃ n, details.length = n + 1 := by
    cases details with
    | nil => exact absurd rfl h
    | cons a l => exact ⟨l.length, by simp⟩
  unfold rewriteRefId
  rw [hn, List.range_succ, List.foldl_append]
  simp

theorem updateCredits_forall2 (d : Daemon) (CONFS : Int) (cs cs2 : List Credit)
    (h : updateCredits d CONFS cs = some cs2) :
    List.Forall₂ (fun c c2 => stepCredit d CONFS c = some c2) cs cs2 := by
  induction cs generalizing cs2 with
  | nil =>
    unfold updateCredits at h
    cases h
    exact List.Forall₂.nil
  | cons c rest ih =>
    unfold updateCredits at h
    cases hc : stepCredit d CONFS c with
    | none => rw [hc] at h; cases h
    | some c2 =>
      rw [hc] at h
      cases hr : updateCredits d CONFS rest with
      | none => rw [hr] at h; cases h
      | some rest2 =>
        rw [hr] at h
        cases h
        exact List.Forall₂.cons hc (ih rest2 hr)

theorem mainBlock_credits (d : Daemon) (CONFS : Int) (commitOk2 : Bool)
    (currency0 : String) (db : DB) (lastblock : Int) (db2 : DB) (lb2 : Int)
    (hgt : lastblock < d.getinfo_blocks)
    (h : mainBlock d CONFS true commitOk2 currency0 db lastblock =
      some (db2, lb2)) :
    List.Forall₂ (fun c c2 => stepCredit d CONFS c = some c2)
      db.credits db2.credits := by
  unfold mainBlock at h
  rw [if_neg (not_le.mpr hgt)] at h
  cases hu : updateCredits d CONFS db.credits with
  | none => rw [hu] at h; cases h
  | some creds2 =>
    rw [hu] at h
    have hc2 : db2.credits = creds2 := by
      cases commitOk2 <;> (cases h; rfl)
    rw [hc2]
    exact updateCredits_forall2 d CONFS db.credits creds2 hu

theorem stepCredit_of_complete (d : Daemon) (CONFS : Int) (c : Credit)
    (h : c.transaction_state = "complete") : stepCredit d CONFS c = some c := by
  unfold stepCredit
  rw [if_neg]
  intro hb
  rw [Bool.and_eq_true] at hb
  have := of_decide_eq_true (by simpa using hb.1)
  rw [h] at this
  exact absurd this (by decide)

theorem stepCredit_of_confirmed (d : Daemon) (CONFS : Int) (c : Credit)
    (txd : TxInfo) (hstate : c.transaction_state = "unconfirmed")
    (hnet : c.network = NETWORK)
    (htx : d.gettransaction (refTxid c.ref_id) = some txd)
    (hconf : CONFS ≤ txd.confirmations) :
    stepCredit d CONFS c = some
      { c with
        transaction_state := "complete"
        ref_id := rewriteRefId txd.txid txd.details c.ref_id } := by
  have hguard : (c.transaction_state == "unconfirmed" && c.network == NETWORK)
      = true := by
    rw [Bool.and_eq_true]
    exact ⟨beq_iff_eq.mpr hstate, beq_iff_eq.mpr hnet⟩
  unfold stepCredit
  rw [if_pos hguard, htx]
  dsimp only
  rw [if_pos hconf]

/-! Claim theorems. -/

/-- C1 counterexample: the claim says a call to `adjust_hwbalance`
with deltas given appends a new snapshot row, so the log grows by
exactly one row and the previous row is never updated in place.  On
the store `db100` (one snapshot row, available 100, total 100),
`adjust_hwbalance(available=-5, total=-5)` leaves a log of length 1
whose single row now reads available 95, total 95: the log did not
grow, and the previous row was updated in place.  (The object passed
to `ses.add` is the row loaded by `ses.query(...).first()`, which is
already persistent, so the session flushes an UPDATE, not an
INSERT.) -/
theorem C1_counterexample :
    db100.hwbalances.length = 1 ∧
    (adjust_hwbalance true (some (-5)) (some (-5)) db100).map
        (fun db => db.hwbalances.map (fun h => (h.available, h.total)))
      = some [(95, 95)] := by
  decide

/-- C1 (amended): for every call to `adjust_hwbalance` with at least
one delta given, when a latest snapshot exists for the configured
network, that latest snapshot row is updated in place so that its
available and total equal the previous values plus the given deltas
(an omitted delta leaves that field unchanged), with network and
currency unchanged; no new row is inserted, so the snapshot log's
length is unchanged. -/
theorem C1_adjust_in_place (available total : Option Int) (db : DB)
    (hwb : HWBalance) (hlatest : findLatestHWB db.hwbalances = some hwb)
    (hsome : available.isSome ∨ total.isSome) :
    ∃ db2, adjust_hwbalance true available total db = some db2 ∧
      db2.hwbalances.length = db.hwbalances.length ∧
      findLatestHWB db2.hwbalances = some
        { hwb with
          available := hwb.available + available.getD 0
          total := hwb.total + total.getD 0 } := by
  have hguard : (available.isNone && total.isNone) = false := by
    rcases hsome with h | h
    · cases available with
      | none => simp at h
      | some a => simp
    · cases total with
      | none => simp at h
      | some a => cases available <;> simp
  obtain ⟨db2, ha, hlen, -, hfind⟩ :=
    adjust_latest_spec available total db hwb hlatest hguard
  exact ⟨db2, ha, hlen, hfind⟩

/-- Witness for C1 (amended): adjusting `db100` by (-5, -5) keeps the
log at one row and turns its latest snapshot into available 95,
total 95. -/
theorem C1_adjust_in_place_witness :
    ∃ db2, adjust_hwbalance true (some (-5)) (some (-5)) db100 = some db2 ∧
      db2.hwbalances.length = db100.hwbalances.length ∧
      findLatestHWB db2.hwbalances = some ⟨95, 95, "BTC", "bitcoin"⟩ := by
  obtain ⟨db2, h1, h2, h3⟩ := C1_adjust_in_place (some (-5)) (some (-5)) db100
    ⟨100, 100, "BTC", "bitcoin"⟩ (by decide) (Or.inl rfl)
  exact ⟨db2, h1, h2, by rw [h3]; decide⟩

/-- C9: when the commit inside `adjust_hwbalance` fails, the
exception is caught locally (the function still returns normally,
never `none`), the session is rolled back, and the store is exactly
what it was before the call: the adjustment's effect is silently
dropped, with no retry. -/
theorem C9_commit_failure_drops (available total : Option Int) (db : DB)
    (hwb : HWBalance) (hlatest : findLatestHWB db.hwbalances = some hwb) :
    adjust_hwbalance false available total db = some db := by
  unfold adjust_hwbalance
  split
  · rfl
  · rw [hlatest]
    rfl

/-- Witness for C9: a failing commit on `db100` returns the store
unchanged. -/
theorem C9_witness : adjust_hwbalance false (some 1) none db100 = some db100 :=
  C9_commit_failure_drops (some 1) none db100 ⟨100, 100, "BTC", "bitcoin"⟩
    (by decide)

/-- C7: a block notification whose daemon-reported height is at most
the last seen height returns immediately: the store (credits and
snapshots alike) and the watermark are unchanged. -/
theorem C7_stale_block_noop (d : Daemon) (CONFS : Int)
    (commitOk1 commitOk2 : Bool) (currency0 : String) (db : DB)
    (lastblock : Int) (h : d.getinfo_blocks ≤ lastblock) :
    mainBlock d CONFS commitOk1 commitOk2 currency0 db lastblock =
      some (db, lastblock) := by
  unfold mainBlock
  rw [if_pos h]

/-- Witness for C7: `testDaemon` reports height 10, and a block
notification with watermark 12 changes nothing. -/
theorem C7_witness :
    mainBlock testDaemon 2 true true "BTC" db100 12 = some (db100, 12) :=
  C7_stale_block_noop testDaemon 2 true true "BTC" db100 12 (by decide)

/-- C10: in the per-output loop of a transaction notification, an
output whose category is neither send nor receive is silently
skipped: no `confirm_send` call is emitted, no credit is created and
no balance change happens for that output, and processing continues
with the remaining outputs at the next index. -/
theorem C10_other_category_skipped (commitOk : Bool) (currency0 txid : String)
    (confirmed : Bool) (p : Nat) (put : TxDetail) (rest : List TxDetail)
    (db : DB) (calls : List SendCall)
    (h1 : put.category ≠ "send") (h2 : put.category ≠ "receive") :
    processOutputs commitOk currency0 txid confirmed p (put :: rest)
        (db, calls) =
      processOutputs commitOk currency0 txid confirmed (p + 1) rest
        (db, calls) := by
  have b1 : (put.category == "send") = false := beq_eq_false_iff_ne.mpr h1
  have b2 : (put.category == "receive") = false := beq_eq_false_iff_ne.mpr h2
  conv_lhs => rw [processOutputs]
  rw [b1, b2]
  rfl

/-- Witness for C10: a single output of category generate produces no
state change and no emitted call. -/
theorem C10_witness :
    processOutputs true "BTC" "abc" false 0 [⟨"addr1", 5, "generate"⟩]
      (db100, []) = some (db100, []) :=
  (C10_other_category_skipped true "BTC" "abc" false 0 ⟨"addr1", 5, "generate"⟩
    [] db100 [] (by decide) (by decide)).trans rfl

/-- C2: `process_receive` is idempotent on its reference-id argument.
Starting from a store with no credit for `txid` and a known address,
the first call creates exactly one Credit with that reference id, and
a second call with the same reference id returns before creating a
credit or adjusting the balance: the store is returned unchanged, so
at most one Credit exists per external reference id. -/
theorem C2_receive_idempotent (currency0 txid : String) (put put2 : TxDetail)
    (confirmed confirmed2 : Bool) (db db1 db2 : DB) (addy : Address)
    (h0 : (db.credits.filter (fun c => c.ref_id == txid)).length = 0)
    (haddr : db.addresses.find? (fun a => a.address == put.address) = some addy)
    (h1 : process_receive true currency0 txid put confirmed db = some db1)
    (h2 : process_receive true currency0 txid put2 confirmed2 db1 = some db2) :
    (db1.credits.filter (fun c => c.ref_id == txid)).length = 1 ∧ db2 = db1 := by
  rw [process_receive_creates currency0 txid put confirmed db addy h0 haddr] at h1
  obtain ⟨hcred, -⟩ := adjust_hwbalance_credits true none (some put.amount) _ db1 h1
  have hcount : (db1.credits.filter (fun c => c.ref_id == txid)).length = 1 := by
    rw [hcred]
    dsimp only
    rw [List.filter_append, List.length_append, h0]
    simp [processCreditRow]
  refine ⟨hcount, ?_⟩
  unfold process_receive at h2
  rw [hcount, if_pos (by decide)] at h2
  exact (Option.some.inj h2).symm

/-- Witness for C2: receiving output 0 of transaction `xyz` twice on
`dbUnconfirmed` creates one credit with reference id `xyz:0` and the
second call leaves the store unchanged. -/
theorem C2_witness :
    ∃ db1, process_receive true "BTC" "xyz:0" ⟨"addr1", 3, "receive"⟩ false
        dbUnconfirmed = some db1 ∧
      (db1.credits.filter (fun c => c.ref_id == "xyz:0")).length = 1 ∧
      process_receive true "BTC" "xyz:0" ⟨"addr1", 3, "receive"⟩ false db1 =
        some db1 := by
  have h1 : process_receive true "BTC" "xyz:0" ⟨"addr1", 3, "receive"⟩ false
      dbUnconfirmed = some
        ⟨[⟨5, "addr1", "BTC", "Bitcoin", "unconfirmed", "tx received", "abc:0", 1⟩,
          ⟨3, "addr1", "BTC", "Bitcoin", "unconfirmed", "tx received", "xyz:0", 1⟩],
         [⟨"addr1", 1⟩], [⟨100, 103, "BTC", "bitcoin"⟩]⟩ := by decide
  have h2 : process_receive true "BTC" "xyz:0" ⟨"addr1", 3, "receive"⟩ false
      (⟨[⟨5, "addr1", "BTC", "Bitcoin", "unconfirmed", "tx received", "abc:0", 1⟩,
          ⟨3, "addr1", "BTC", "Bitcoin", "unconfirmed", "tx received", "xyz:0", 1⟩],
         [⟨"addr1", 1⟩], [⟨100, 103, "BTC", "bitcoin"⟩]⟩ : DB) = some
        ⟨[⟨5, "addr1", "BTC", "Bitcoin", "unconfirmed", "tx received", "abc:0", 1⟩,
          ⟨3, "addr1", "BTC", "Bitcoin", "unconfirmed", "tx received", "xyz:0", 1⟩],
         [⟨"addr1", 1⟩], [⟨100, 103, "BTC", "bitcoin"⟩]⟩ := by decide
  obtain ⟨hc, he⟩ := C2_receive_idempotent "BTC" "xyz:0" ⟨"addr1", 3, "receive"⟩
    ⟨"addr1", 3, "receive"⟩ false false dbUnconfirmed _ _ ⟨"addr1", 1⟩
    (by decide) (by decide) h1 h2
  exact ⟨_, h1, hc, by rw [he] at h2; exact h2⟩

/-- C5: `validate_address` is a total boolean function — a raising
decoder is absorbed by the try/except, so no exception propagates —
and it returns true iff the address decodes under one of the
supported network codes and, when a specific network argument is
given, the decoded network code equals it.  The argument `f` stands
for pycoin's `is_address_valid`, always called with
`allowable_netcodes = NETCODES`; the hypothesis is pycoin's contract
that any netcode it reports is drawn from the allowable list. -/
theorem C5_validate_address_iff
    (f : String → List String → Except Unit (Option String))
    (a : String) (n : Option String)
    (hf : ∀ s nc, f s NETCODES = Except.ok (some nc) → nc ∈ NETCODES) :
    validate_address f a n = true ↔
      ∃ nc, f a NETCODES = Except.ok (some nc) ∧ nc ∈ NETCODES ∧
        ∀ m, n = some m → nc = m := by
  unfold validate_address
  cases hfa : f a NETCODES with
  | error e => simp
  | ok netcode =>
    cases netcode with
    | none => simp
    | some nc =>
      have hmem : nc ∈ NETCODES := hf a nc hfa
      cases n with
      | none => simp [hmem]
      | some m =>
        by_cases hnm : nc = m
        · subst hnm
          simp [hmem]
        · simp [hnm]

/-- Witness for C5: with a decoder that reports BTC for every string,
requesting network XTN makes the validator return false, matching the
characterization. -/
theorem C5_witness :
    validate_address constDecoder "addr" (some "XTN") = true ↔
      ∃ nc, constDecoder "addr" NETCODES = Except.ok (some nc) ∧
        nc ∈ NETCODES ∧ ∀ m, (some "XTN" : Option String) = some m → nc = m :=
  C5_validate_address_iff constDecoder "addr" (some "XTN")
    (fun _ nc h => by
      injection h with h1
      injection h1 with h2
      rw [← h2]
      decide)

/-- C6: a successful `process_receive` on a new reference id with a
known address raises the Balance Cache's total by exactly the
received amount and leaves its available field unchanged (the store's
`get_balance` reads the latest snapshot, whose available field kept
its prior value). -/
theorem C6_receive_total_increase (currency0 txid : String) (put : TxDetail)
    (confirmed : Bool) (db : DB) (addy : Address) (hwb : HWBalance)
    (h0 : (db.credits.filter (fun c => c.ref_id == txid)).length = 0)
    (haddr : db.addresses.find? (fun a => a.address == put.address) = some addy)
    (hlatest : findLatestHWB db.hwbalances = some hwb) :
    ∃ db1, process_receive true currency0 txid put confirmed db = some db1 ∧
      get_balance db1 = some (hwb.available, hwb.total + put.amount) := by
  rw [process_receive_creates currency0 txid put confirmed db addy h0 haddr]
  obtain ⟨db1, ha, -, -, hfind⟩ := adjust_latest_spec none (some put.amount)
    { db with
      credits := db.credits ++
        [processCreditRow put.amount put.address currency0 NETWORK
          (if confirmed then "complete" else "unconfirmed") "tx received"
          txid addy.user_id] } hwb hlatest rfl
  refine ⟨db1, ha, ?_⟩
  unfold get_balance
  rw [hfind]
  simp

/-- Witness for C6: receiving 3 coins at the known address on
`dbUnconfirmed` (snapshot available 100, total 100) yields total 103
with available still 100. -/
theorem C6_witness :
    ∃ db1, process_receive true "BTC" "xyz:0" ⟨"addr1", 3, "receive"⟩ false
        dbUnconfirmed = some db1 ∧
      get_balance db1 = some (100, 103) := by
  obtain ⟨db1, ha, hb⟩ := C6_receive_total_increase "BTC" "xyz:0"
    ⟨"addr1", 3, "receive"⟩ false dbUnconfirmed ⟨"addr1", 1⟩
    ⟨100, 100, "BTC", "bitcoin"⟩ (by decide) (by decide) (by decide)
  exact ⟨db1, ha, by rw [hb]; decide⟩

/-- C8: `send_to_address` invokes the daemon's send primitive and
returns the transaction id the daemon reports, then decrements both
the available and the total fields of the Balance Cache by the sent
amount.  No pre-flight balance check is performed: the only
hypothesis is that a snapshot exists — nothing requires the available
balance to cover the amount, and the daemon's txid is returned for
every store. -/
theorem C8_send_decrements (d : Daemon) (address : String) (amount : Int)
    (db : DB) (hwb : HWBalance)
    (hlatest : findLatestHWB db.hwbalances = some hwb) :
    ∃ db2, send_to_address d true address amount db =
        some (d.sendtoaddress address amount, db2) ∧
      get_balance db2 = some (hwb.available - amount, hwb.total - amount) := by
  obtain ⟨db2, ha, -, -, hfind⟩ := adjust_latest_spec (some (-amount))
    (some (-amount)) db hwb hlatest rfl
  refine ⟨db2, ?_, ?_⟩
  · unfold send_to_address
    rw [ha]
    rfl
  · unfold get_balance
    rw [hfind]
    simp [sub_eq_add_neg]

/-- Witness for C8: sending 250 coins from `db100` (available 100,
total 100) still goes to the daemon, returns its txid, and drives the
cached balance to -150 available and -150 total: no pre-flight check stopped it. -/
theorem C8_witness :
    ∃ db2, send_to_address testDaemon true "addr9" 250 db100 =
        some ("txA", db2) ∧
      get_balance db2 = some (-150, -150) := by
  obtain ⟨db2, ha, hb⟩ := C8_send_decrements testDaemon "addr9" 250 db100
    ⟨100, 100, "BTC", "bitcoin"⟩ (by decide)
  exact ⟨db2, ha, by rw [hb]; decide⟩

/-- C3 counterexample: the claim says a confirmed credit's reference
id is rewritten to the canonical transaction id suffixed with that
credit's own output index.  In `dbUnconfirmed` the credit is for
output 0 of transaction `abc` (reference id `abc:0`, funds at
`addr1`, the first of the two outputs `testDaemon` reports), so the
claim demands `abc:0`; the code's rewrite loop overwrites the
reference id once per output and leaves the last index, producing
`abc:1`. -/
theorem C3_counterexample :
    (mainBlock testDaemon 2 true true "BTC" dbUnconfirmed 0).map
        (fun r => r.1.credits.map (fun c => c.ref_id)) = some ["abc:1"] ∧
    ("abc:1" : String) ≠ "abc:0" := by
  decide

/-- C3 (amended): on a block notification whose reported height
exceeds the last seen height, every Credit in unconfirmed state on
this network whose transaction now has confirmations at or above the
threshold is rewritten so that its reference id is the canonical
transaction id reported by the daemon suffixed with the index of the
last output in that transaction's details list (the rewrite loop
overwrites the reference id once per output, so the last output index
wins; an empty details list leaves the reference id unchanged). -/
theorem C3_refid_rewrite (d : Daemon) (CONFS : Int) (commitOk2 : Bool)
    (currency0 : String) (db : DB) (lastblock : Int) (db2 : DB) (lb2 : Int)
    (hgt : lastblock < d.getinfo_blocks)
    (h : mainBlock d CONFS true commitOk2 currency0 db lastblock =
      some (db2, lb2)) :
    List.Forall₂ (fun c c2 =>
      c.transaction_state = "unconfirmed" → c.network = NETWORK →
      ∀ txd, d.gettransaction (refTxid c.ref_id) = some txd →
        CONFS ≤ txd.confirmations → txd.details ≠ [] →
        c2.ref_id = txd.txid ++ ":" ++ toString (txd.details.length - 1))
      db.credits db2.credits := by
  refine (mainBlock_credits d CONFS commitOk2 currency0 db lastblock db2 lb2
    hgt h).imp ?_
  intro c c2 hstep hstate hnet txd htx hconf hne
  rw [stepCredit_of_confirmed d CONFS c txd hstate hnet htx hconf] at hstep
  cases hstep
  exact rewriteRefId_eq txd.txid txd.details c.ref_id hne

/-- Witness for C3 (amended): the block notification on
`dbUnconfirmed` rewrites the credit's reference id to `abc:1`, the
transaction id with the last output index. -/
theorem C3_witness :
    List.Forall₂ (fun c c2 =>
      c.transaction_state = "unconfirmed" → c.network = NETWORK →
      ∀ txd, testDaemon.gettransaction (refTxid c.ref_id) = some txd →
        (2 : Int) ≤ txd.confirmations → txd.details ≠ [] →
        c2.ref_id = txd.txid ++ ":" ++ toString (txd.details.length - 1))
      dbUnconfirmed.credits dbAfterBlock.credits :=
  C3_refid_rewrite testDaemon 2 true "BTC" dbUnconfirmed 0 dbAfterBlock 10
    (by decide) (by decide)

/-- C4: on a block notification whose reported height strictly
exceeds the last seen height, every Credit in unconfirmed state on
this network whose daemon-reported confirmations are at or above the
threshold transitions to complete; and a credit already in complete
state is not re-processed — it is returned unchanged, so the
transition happens exactly once across repeated notifications. -/
theorem C4_confirmation_transition (d : Daemon) (CONFS : Int)
    (commitOk2 : Bool) (currency0 : String) (db : DB) (lastblock : Int)
    (db2 : DB) (lb2 : Int) (hgt : lastblock < d.getinfo_blocks)
    (h : mainBlock d CONFS true commitOk2 currency0 db lastblock =
      some (db2, lb2)) :
    List.Forall₂ (fun c c2 =>
      (c.transaction_state = "unconfirmed" → c.network = NETWORK →
        ∀ txd, d.gettransaction (refTxid c.ref_id) = some txd →
          CONFS ≤ txd.confirmations → c2.transaction_state = "complete") ∧
      (c.transaction_state = "complete" → c2 = c))
      db.credits db2.credits := by
  refine (mainBlock_credits d CONFS commitOk2 currency0 db lastblock db2 lb2
    hgt h).imp ?_
  intro c c2 hstep
  constructor
  · intro hstate hnet txd htx hconf
    rw [stepCredit_of_confirmed d CONFS c txd hstate hnet htx hconf] at hstep
    cases hstep
    rfl
  · intro hstate
    rw [stepCredit_of_complete d CONFS c hstate] at hstep
    exact (Option.some.inj hstep).symm

/-- Witness for C4: the block notification on `dbUnconfirmed` (height
10 exceeds watermark 0, three confirmations meet the threshold of
two) flips the credit to complete. -/
theorem C4_witness :
    List.Forall₂ (fun c c2 =>
      (c.transaction_state = "unconfirmed" → c.network = NETWORK →
        ∀ txd, testDaemon.gettransaction (refTxid c.ref_id) = some txd →
          (2 : Int) ≤ txd.confirmations → c2.transaction_state = "complete") ∧
      (c.transaction_state = "complete" → c2 = c))
      dbUnconfirmed.credits dbAfterBlock.credits :=
  C4_confirmation_transition testDaemon 2 true "BTC" dbUnconfirmed 0
    dbAfterBlock 10 (by decide) (by decide)

end DeswBitcoin
